import Mathlib

/-!
Shallow embedding of the training/evaluation orchestration core of
src/auger.py: the example store (read_examples), the featurization
pipeline (convert_examples_to_features), the training loop bookkeeping
(gradient accumulation, optimizer stepping, evaluation-due flag), the
evaluation-loss / perplexity accumulation, the best-of-N reranking of
generated candidates, the corpus-level metric aggregation, and the
checkpoint-selection policy.  External collaborators (the model, the
tokenizer, the rouge and bleu scoring libraries) are modelled as
black-box function parameters; machine floats are modelled as rationals.
-/

namespace Auger

/-- Python str.strip(): remove leading and trailing whitespace.  Defined
structurally over the character list so that it evaluates by kernel
reduction. -/
def pyStrip (s : String) : String :=
  String.mk (((s.data.dropWhile Char.isWhitespace).reverse.dropWhile
    Char.isWhitespace).reverse)

/-- Python str.lower(): lower-case every character.  Defined structurally
over the character list so that it evaluates by kernel reduction. -/
def pyLower (s : String) : String :=
  String.mk (s.data.map Char.toLower)

/-- A single training/test example (class Example in auger.py). -/
structure Example where
  idx : Int
  source_code : String
  review_code : String
  target : String

/-- One raw record of the input json file: the fields read_examples
consumes.  A record may or may not carry an explicit idx field. -/
structure RawRecord where
  idx : Option Int
  source_code : String
  review_code : String
  comments : String

/-- Default example used with List.getD in statements. -/
def exDefault : Example := ⟨0, "", "", ""⟩

/-- Default raw record used with List.getD in statements. -/
def recDefault : RawRecord := ⟨none, "", "", ""⟩

/-- Worker for read_examples: walks the record list with the running
0-based position, mirroring the for idx, js in enumerate(data) loop. -/
def readExamplesGo : Nat → List RawRecord → List Example
  | _, [] => []
  | i, js :: rest =>
    { idx := js.idx.getD (Int.ofNat i),
      source_code := pyStrip (js.source_code.replace " <newline>" ""),
      review_code := pyStrip js.review_code,
      target := pyStrip js.comments } :: readExamplesGo (i + 1) rest

/-- read_examples of auger.py, after the json file has been parsed into
its list of records (data = data['data']). -/
def read_examples (data : List RawRecord) : List Example :=
  readExamplesGo 0 data

/-- The configuration fields of the training loop that its control flow
reads (args.gradient_accumulation_steps, args.do_eval, args.eval_steps). -/
structure TrainArgs where
  gradient_accumulation_steps : Nat
  do_eval : Bool
  eval_steps : Int

/-- The mutable bookkeeping of the training loop of main, plus counters
for how many times the optimizer block ran, how many times it assigned
eval_flag = True, and how many evaluations were triggered. -/
structure TrainState where
  nb_tr_steps : Nat
  global_step : Int
  eval_flag : Bool
  opt_step_count : Nat
  eval_flag_set_count : Nat
  eval_count : Nat

/-- Training-loop state just before the first physical batch
(nb_tr_steps = 0, global_step = 0, eval_flag = True). -/
def initTrainState : TrainState := ⟨0, 0, true, 0, 0, 0⟩

/-- One iteration of the training loop body (one physical batch):
nb_tr_steps += 1; if (nb_tr_steps + 1) % gradient_accumulation_steps == 0
then optimizer.step / zero_grad / scheduler.step / global_step += 1 /
eval_flag = True; then, if do_eval and (global_step + 1) % eval_steps == 0
and eval_flag, the evaluation block runs, resetting nb_tr_steps to 0 and
eval_flag to False. -/
def trainBatch (args : TrainArgs) (s : TrainState) : TrainState :=
  let s1 : TrainState := { s with nb_tr_steps := s.nb_tr_steps + 1 }
  let s2 : TrainState :=
    if (s1.nb_tr_steps + 1) % args.gradient_accumulation_steps = 0 then
      { s1 with opt_step_count := s1.opt_step_count + 1,
                global_step := s1.global_step + 1,
                eval_flag := true,
                eval_flag_set_count := s1.eval_flag_set_count + 1 }
    else s1
  if args.do_eval ∧ (s2.global_step + 1) % args.eval_steps = 0 ∧ s2.eval_flag then
    { s2 with nb_tr_steps := 0, eval_flag := false, eval_count := s2.eval_count + 1 }
  else s2

/-- Running the training loop for n physical batches (for step in bar). -/
def trainRun (args : TrainArgs) : Nat → TrainState
  | 0 => initTrainState
  | n + 1 => trainBatch args (trainRun args n)

/-- The metrics one evaluation produces and feeds to the checkpoint
decisions: the corpus evaluation loss, the corpus bleu-4 average, and the
mean of the three rouge f-score averages. -/
structure EvalMetrics where
  eval_loss : ℚ
  dev_bleu : ℚ
  rouge_avg : ℚ

/-- The checkpoint-selection state of main: the running best values
(best_loss starts at 1e6, best_bleu and best_rouge at 0) together with
which evaluation each of the four checkpoint directories last recorded. -/
structure CkptState where
  last_idx : Option Nat
  best_loss : ℚ
  best_bleu : ℚ
  best_rouge : ℚ
  best_ppl_idx : Option Nat
  best_bleu_idx : Option Nat
  best_rouge_idx : Option Nat

/-- Checkpoint state before the first evaluation. -/
def initCkptState : CkptState := ⟨none, 1000000, 0, 0, none, none, none⟩

/-- The checkpoint decisions of one evaluation (evaluation number i):
checkpoint-last is always overwritten; checkpoint-best-ppl iff
eval_loss < best_loss; checkpoint-best-bleu iff dev_bleu > best_bleu;
checkpoint-best-rouge iff the rouge mean is > best_rouge. -/
def ckptStep (i : Nat) (m : EvalMetrics) (s : CkptState) : CkptState :=
  let s1 : CkptState := { s with last_idx := some i }
  let s2 : CkptState :=
    if m.eval_loss < s1.best_loss then
      { s1 with best_loss := m.eval_loss, best_ppl_idx := some i }
    else s1
  let s3 : CkptState :=
    if m.dev_bleu > s2.best_bleu then
      { s2 with best_bleu := m.dev_bleu, best_bleu_idx := some i }
    else s2
  if m.rouge_avg > s3.best_rouge then
    { s3 with best_rouge := m.rouge_avg, best_rouge_idx := some i }
  else s3

/-- Folding the checkpoint decisions over the evaluations of a run,
numbering evaluations 1, 2, 3, ... -/
def runCkpt (ms : List EvalMetrics) : CkptState :=
  (ms.foldl (fun (p : Nat × CkptState) m => (p.1 + 1, ckptStep (p.1 + 1) m p.2))
    ((0 : Nat), initCkptState)).2

/-- The tokenizer collaborator, as the featurization pipeline uses it:
tokenize turns text into a token list, convert_tokens_to_ids maps each
token to its id (modelled by mapping tokToId over the token list),
eos_token is the end-of-sequence token, pad_token_id its padding id. -/
structure Tokenizer where
  tokenize : String → List String
  tokToId : String → Int
  eos_token : String
  pad_token_id : Int

/-- The two length budgets convert_examples_to_features reads from args. -/
structure FeatArgs where
  max_source_length : Nat
  max_target_length : Nat

/-- A single training/test features record (class InputFeatures). -/
structure InputFeatures where
  example_id : Nat
  source_ids : List Int
  target_ids : List Int
  source_mask : List Nat
  target_mask : List Nat

/-- The fixed task-instruction text prepended to every source
(task_prefix in convert_examples_to_features). -/
def taskText : String := "Output review comments: "

/-- Featurization of one example (the loop body of
convert_examples_to_features): tokenize the prefixed source, truncate to
max_source_length - 1, append eos, convert to ids, left-pad ids with 0
and mask with 0; tokenize the target (or the placeholder "None" when
stage == "test"), truncate to max_target_length - 1 (not in the test
branch), append eos, convert to ids, right-pad ids with the ignore
sentinel -100 and mask with 0. -/
def convertOne (tokenizer : Tokenizer) (args : FeatArgs) (stage : String)
    (example_index : Nat) (ex : Example) : InputFeatures :=
  let source_code_tokens :=
    (tokenizer.tokenize (taskText ++ pyStrip ex.source_code)).take (args.max_source_length - 1)
  let source_tokens := source_code_tokens ++ [tokenizer.eos_token]
  let source_ids := source_tokens.map tokenizer.tokToId
  let source_mask := List.replicate source_tokens.length 1
  let padding_length := args.max_source_length - source_ids.length
  let source_ids := List.replicate padding_length (0 : Int) ++ source_ids
  let source_mask := List.replicate padding_length 0 ++ source_mask
  let target_tokens :=
    if stage = "test" then tokenizer.tokenize "None"
    else (tokenizer.tokenize ex.target).take (args.max_target_length - 1)
  let target_tokens := target_tokens ++ [tokenizer.eos_token]
  let target_ids := target_tokens.map tokenizer.tokToId
  let target_mask := List.replicate target_ids.length 1
  let padding_length2 := args.max_target_length - target_ids.length
  let target_ids := target_ids ++ List.replicate padding_length2 (-100 : Int)
  let target_mask := target_mask ++ List.replicate padding_length2 0
  ⟨example_index, source_ids, target_ids, source_mask, target_mask⟩

/-- convert_examples_to_features of auger.py. -/
def convert_examples_to_features (tokenizer : Tokenizer) (args : FeatArgs)
    (stage : String) (examples : List Example) : List InputFeatures :=
  (List.range examples.length).map
    (fun i => convertOne tokenizer args stage i (examples.getD i exDefault))

/-- The evaluation-loss accumulation of main: one entry per evaluation
batch, holding the scalar loss the model returned for that batch and the
flattened entries of the batch's target_mask tensor.  eval_loss sums the
batch losses and tokens_num sums all mask entries. -/
def evalLossTokens (batches : List (ℚ × List Nat)) : ℚ × Nat :=
  batches.foldl (fun acc b => (acc.1 + b.1, acc.2 + b.2.sum)) (0, 0)

/-- eval_loss = eval_loss / tokens_num, the corpus-average loss whose
exponential main reports as eval_ppl. -/
def evalAvgLoss (batches : List (ℚ × List Nat)) : ℚ :=
  (evalLossTokens batches).1 / ((evalLossTokens batches).2 : ℚ)

/-- The record the rouge collaborator returns for one (hyps, refs) call:
the rouge-1, rouge-2 and rouge-l f-scores and the rouge-1 precision and
recall (the five components auger.py reads). -/
structure RougeScores where
  r1f : ℚ
  r2f : ℚ
  rlf : ℚ
  r1p : ℚ
  r1r : ℚ

/-- The black-box rouge scorer: total on non-empty hypotheses. -/
def RougeFn : Type := String → String → RougeScores

/-- Calling Rouge().get_scores: the library raises ValueError when the
hypothesis is the empty string, modelled as none. -/
def getScoresOpt (rf : RougeFn) (hyps refs : String) : Option RougeScores :=
  if hyps = "" then none else some (rf hyps refs)

/-- The aggregate overlap score of one get_scores result:
(rouge-1 f + rouge-2 f + rouge-l f) / 3. -/
def aggOf (s : RougeScores) : ℚ := (s.r1f + s.r2f + s.rlf) / 3

/-- The per-candidate score the dev-time reranker computes: the
aggregate overlap score of the stripped, lower-cased candidate against
the stripped, lower-cased gold target. -/
def devCandScore (rf : RougeFn) (gold c : String) : ℚ :=
  aggOf (rf (pyLower (pyStrip c)) (pyLower (pyStrip gold)))

/-- The dev-time best-of-N selection loop for one example (lines 475-484
of auger.py): starting from best_generation = "" and best_score = -1.0,
score each candidate with Rouge().get_scores on its stripped, lower-cased
text and keep it iff its aggregate score is strictly greater than the
best so far.  The rouge call is not guarded against an empty hypothesis,
so a whitespace-only candidate raises (none). -/
def devRerankOne (rf : RougeFn) (gold : String) (cands : List String) :
    Option (String × ℚ) :=
  cands.foldlM
    (fun acc c => do
      let s ← getScoresOpt rf (pyLower (pyStrip c)) (pyLower (pyStrip gold))
      let score := aggOf s
      pure (if score > acc.2 then (c, score) else acc))
    (("", (-1 : ℚ)))

/-- The test-phase best-of-N selection loop for one example (lines
607-619 of auger.py): identical to the dev-time loop except that a
candidate that strips to the empty string is scored with the single-space
placeholder hypothesis " " instead. -/
def testRerankOne (rf : RougeFn) (gold : String) (cands : List String) :
    Option (String × ℚ) :=
  cands.foldlM
    (fun acc c => do
      let s ←
        if pyStrip c = "" then getScoresOpt rf " " (pyLower (pyStrip gold))
        else getScoresOpt rf (pyLower (pyStrip c)) (pyLower (pyStrip gold))
      let score := aggOf s
      pure (if score > acc.2 then (c, score) else acc))
    (("", (-1 : ℚ)))

/-- The slice of generated candidates belonging to example i:
p[i * num_return_sequences .. (i + 1) * num_return_sequences - 1]. -/
def candSlice (p : List String) (n i : Nat) : List String :=
  (p.drop (i * n)).take n

/-- The black-box sentence_bleu scorer. -/
def BleuFn : Type := String → String → ℚ

/-- The running corpus-level sums of the metric-aggregation loop of main
(rouge_1, rouge_2, rouge_l, perfect_pred, dev_bleu, precision, recall)
together with the number of predictions appended. -/
structure AggState where
  rouge_1 : ℚ
  rouge_2 : ℚ
  rouge_l : ℚ
  perfect_pred : Nat
  dev_bleu : ℚ
  prec : ℚ
  recl : ℚ
  count : Nat

/-- Aggregation sums before the first example. -/
def initAggState : AggState := ⟨0, 0, 0, 0, 0, 0, 0, 0⟩

/-- One iteration of the corpus-aggregation loop (for inf, gold in
zip(p, eval_examples)): count a perfect prediction when the stripped
lower-cased texts coincide; add sentence_bleu unless the hypothesis
strips to empty (then add 0.0); call Rouge().get_scores with the
single-space placeholder against the stripped gold when the hypothesis
strips to empty, otherwise on the stripped lower-cased pair; accumulate
the five rouge components; append the prediction (count it). -/
def aggStep (rf : RougeFn) (bf : BleuFn) (s : AggState) (pg : String × String) :
    Option AggState := do
  let inf := pg.1
  let gold := pg.2
  let s := if pyLower (pyStrip inf) = pyLower (pyStrip gold) then
      { s with perfect_pred := s.perfect_pred + 1 } else s
  let s := if pyStrip inf = "" then { s with dev_bleu := s.dev_bleu + 0 }
    else { s with dev_bleu := s.dev_bleu + bf (pyStrip inf) (pyStrip gold) }
  let r ←
    if pyStrip inf = "" then getScoresOpt rf " " (pyStrip gold)
    else getScoresOpt rf (pyLower (pyStrip inf)) (pyLower (pyStrip gold))
  pure { s with rouge_1 := s.rouge_1 + r.r1f,
                rouge_2 := s.rouge_2 + r.r2f,
                rouge_l := s.rouge_l + r.rlf,
                prec := s.prec + r.r1p,
                recl := s.recl + r.r1r,
                count := s.count + 1 }

/-- Running the corpus-aggregation loop over all (hypothesis, gold)
pairs. -/
def runAgg (rf : RougeFn) (bf : BleuFn) (pairs : List (String × String)) :
    Option AggState :=
  pairs.foldlM (aggStep rf bf) initAggState

/-- Python division by an integer count: raises ZeroDivisionError when
the count is zero, modelled as none. -/
def pyDiv (a : ℚ) (b : Nat) : Option ℚ :=
  if b = 0 then none else some (a / (b : ℚ))

/-- The corpus-level averages main reports after the aggregation loop. -/
structure AggResults where
  dev_bleu : ℚ
  rouge_1 : ℚ
  rouge_2 : ℚ
  rouge_l : ℚ
  prec : ℚ
  recl : ℚ
  perfect_pred : ℚ

/-- The final averaging block of main: total = len(predictions), then
each corpus sum is divided by total (dev_bleu /= total and so on),
with no guard against total == 0. -/
def finalizeAgg (s : AggState) : Option AggResults := do
  let b ← pyDiv s.dev_bleu s.count
  let r1 ← pyDiv s.rouge_1 s.count
  let r2 ← pyDiv s.rouge_2 s.count
  let rl ← pyDiv s.rouge_l s.count
  let pr ← pyDiv s.prec s.count
  let rc ← pyDiv s.recl s.count
  let pp ← pyDiv (s.perfect_pred : ℚ) s.count
  pure ⟨b, r1, r2, rl, pr, rc, pp⟩

/-- The whole corpus-metric pass: run the aggregation loop, then the
final division by the example count. -/
def evalCorpus (rf : RougeFn) (bf : BleuFn) (pairs : List (String × String)) :
    Option AggResults :=
  (runAgg rf bf pairs).bind finalizeAgg

/-- A concrete rouge scorer (all components zero), used to instantiate
black-box scorer parameters at concrete inputs. -/
def rfZero : RougeFn := fun _ _ => ⟨0, 0, 0, 0, 0⟩

/-- A concrete bleu scorer, used to instantiate black-box scorer
parameters at concrete inputs. -/
def bfZero : BleuFn := fun _ _ => 0

/-- A concrete toy tokenizer (whole text as one token, every id 5, pad
id 0), used to instantiate the tokenizer collaborator at concrete
inputs. -/
def tokUnit : Tokenizer := ⟨fun s => [s], fun _ => 5, "</s>", 0⟩

theorem readExamplesGo_length (k : Nat) (data : List RawRecord) :
    (readExamplesGo k data).length = data.length := by
  induction data generalizing k with
  | nil => rfl
  | cons js rest ih => simp [readExamplesGo, ih]

theorem readExamplesGo_getD (data : List RawRecord) (k i : Nat)
    (hi : i < data.length) :
    ((readExamplesGo k data).getD i exDefault).source_code
        = pyStrip ((data.getD i recDefault).source_code.replace " <newline>" "") ∧
      ((readExamplesGo k data).getD i exDefault).review_code
        = pyStrip (data.getD i recDefault).review_code ∧
      ((readExamplesGo k data).getD i exDefault).target
        = pyStrip (data.getD i recDefault).comments := by
  induction data generalizing k i with
  | nil => simp at hi
  | cons js rest ih =>
    cases i with
    | zero => simp [readExamplesGo]
    | succ n =>
      simpa [readExamplesGo] using ih (k + 1) n (by simpa using hi)

/-- C10: every example the store loads carries the record's raw
source_code with each occurrence of " <newline>" removed and then
stripped, and the raw review_code and comments merely stripped; the
store keeps one example per record. -/
theorem c10_read_examples_normalization (data : List RawRecord) (i : Nat)
    (hi : i < data.length) :
    (read_examples data).length = data.length ∧
    ((read_examples data).getD i exDefault).source_code
      = pyStrip ((data.getD i recDefault).source_code.replace " <newline>" "") ∧
    ((read_examples data).getD i exDefault).review_code
      = pyStrip (data.getD i recDefault).review_code ∧
    ((read_examples data).getD i exDefault).target
      = pyStrip (data.getD i recDefault).comments :=
  ⟨readExamplesGo_length 0 data, readExamplesGo_getD data 0 i hi⟩

theorem c10_witness :
    (0 < ([⟨none, " x <newline>y ", " r ", " c "⟩] : List RawRecord).length) ∧
    ((read_examples [⟨none, " x <newline>y ", " r ", " c "⟩]).length
        = ([⟨none, " x <newline>y ", " r ", " c "⟩] : List RawRecord).length ∧
      ((read_examples [⟨none, " x <newline>y ", " r ", " c "⟩]).getD 0 exDefault).source_code
        = pyStrip ((([⟨none, " x <newline>y ", " r ", " c "⟩] : List RawRecord).getD 0
            recDefault).source_code.replace " <newline>" "") ∧
      ((read_examples [⟨none, " x <newline>y ", " r ", " c "⟩]).getD 0 exDefault).review_code
        = pyStrip (([⟨none, " x <newline>y ", " r ", " c "⟩] : List RawRecord).getD 0
            recDefault).review_code ∧
      ((read_examples [⟨none, " x <newline>y ", " r ", " c "⟩]).getD 0 exDefault).target
        = pyStrip (([⟨none, " x <newline>y ", " r ", " c "⟩] : List RawRecord).getD 0
            recDefault).comments) :=
  ⟨by decide, c10_read_examples_normalization [⟨none, " x <newline>y ", " r ", " c "⟩] 0
    (by decide)⟩

theorem trainRun_no_eval (gas : Nat) (es : Int) (i : Nat) :
    trainRun ⟨gas, false, es⟩ i =
      ⟨i, (((i + 1) / gas - 1 / gas : Nat) : Int), true,
        (i + 1) / gas - 1 / gas, (i + 1) / gas - 1 / gas, 0⟩ := by
  induction i with
  | zero =>
    simp [trainRun, initTrainState]
  | succ n ih =>
    rw [trainRun, ih]
    have hle : 1 / gas ≤ (n + 1) / gas := Nat.div_le_div_right (by omega)
    by_cases h : (n + 1 + 1) % gas = 0
    · have hdvd : gas ∣ n + 1 + 1 := (Nat.dvd_iff_mod_eq_zero).mpr h
      have hsucc : (n + 1 + 1) / gas = (n + 1) / gas + 1 := by
        rw [Nat.succ_div, if_pos hdvd]
      simp only [trainBatch, h, if_pos rfl]
      simp [hsucc, Nat.sub_add_comm hle]
    · have hdvd : ¬ gas ∣ n + 1 + 1 := fun hd => h ((Nat.dvd_iff_mod_eq_zero).mp hd)
      have hsucc : (n + 1 + 1) / gas = (n + 1) / gas := by
        rw [Nat.succ_div, if_neg hdvd]; simp
      simp only [trainBatch]
      simp [h, hsucc]

/-- C1 (amended): when no evaluation is triggered during the run
(do_eval off), the optimizer block runs exactly once every
gradient_accumulation_steps physical batches: over k *
gradient_accumulation_steps physical batches the optimizer steps exactly
k times, and the evaluation-due flag is assigned True exactly k times,
once per optimizer step; in particular a 10-batch run with
gradient_accumulation_steps = 2 yields 5 optimizer steps and 5 flag
assignments.  (A mid-run evaluation resets nb_tr_steps to 0, which
restarts the accumulation phase and breaks this cadence; see the
counterexample.) -/
theorem c1_grad_accum_optimizer_cadence (gas : Nat) (es : Int) (k : Nat)
    (hgas : 1 ≤ gas) :
    (trainRun ⟨gas, false, es⟩ (k * gas)).opt_step_count = k ∧
    (trainRun ⟨gas, false, es⟩ (k * gas)).eval_flag_set_count = k := by
  rw [trainRun_no_eval gas es]
  have hcount : (k * gas + 1) / gas - 1 / gas = k := by
    rcases Nat.lt_or_ge 1 gas with h2 | h1
    · have h0 : 0 < gas := by omega
      have e1 : k * gas + 1 = 1 + gas * k := by ring
      have e2 : (1 + gas * k) / gas = 1 / gas + k := Nat.add_mul_div_left 1 k h0
      have e3 : 1 / gas = 0 := Nat.div_eq_of_lt h2
      rw [e1, e2, e3]
      omega
    · have hg1 : gas = 1 := by omega
      subst hg1
      simp
  exact ⟨hcount, hcount⟩

theorem c1_witness :
    (1 ≤ 2) ∧
    ((trainRun ⟨2, false, 1000⟩ (5 * 2)).opt_step_count = 5 ∧
      (trainRun ⟨2, false, 1000⟩ (5 * 2)).eval_flag_set_count = 5) :=
  ⟨by decide, c1_grad_accum_optimizer_cadence 2 1000 5 (by decide)⟩

/-- C1 counterexample: in a run configured for exactly 10 physical
batches with gradient_accumulation_steps = 2 but with do_eval on and
eval_steps = 1, every evaluation resets nb_tr_steps to 0, after which
(nb_tr_steps + 1) % 2 == 0 fires on the very next batch: the optimizer
steps 10 times (once per physical batch), not 5, refuting the claim as
stated. -/
theorem c1_counterexample_eval_reset :
    (trainRun ⟨2, true, 1⟩ 10).opt_step_count = 10 ∧
    ¬ (trainRun ⟨2, true, 1⟩ 10).opt_step_count = 5 := by
  constructor
  · decide
  · decide

/-- C2: every evaluation unconditionally overwrites checkpoint-last;
it overwrites checkpoint-best-ppl iff the new evaluation loss is
strictly lower than the stored best, checkpoint-best-bleu iff the new
bleu-4 average is strictly higher, and checkpoint-best-rouge iff the new
mean of the three rouge f-averages is strictly higher; the four
decisions read and write disjoint state.  On the metric sequence
[(2.0, 0.5), (1.5, 0.4), (1.8, 0.6)] the best-ppl checkpoint ends at
evaluation 2 and the best-rouge checkpoint at evaluation 3. -/
theorem c2_checkpoint_policy :
    (∀ (i : Nat) (m : EvalMetrics) (s : CkptState),
      (ckptStep i m s).last_idx = some i ∧
      (ckptStep i m s).best_loss
        = (if m.eval_loss < s.best_loss then m.eval_loss else s.best_loss) ∧
      (ckptStep i m s).best_ppl_idx
        = (if m.eval_loss < s.best_loss then some i else s.best_ppl_idx) ∧
      (ckptStep i m s).best_bleu
        = (if m.dev_bleu > s.best_bleu then m.dev_bleu else s.best_bleu) ∧
      (ckptStep i m s).best_bleu_idx
        = (if m.dev_bleu > s.best_bleu then some i else s.best_bleu_idx) ∧
      (ckptStep i m s).best_rouge
        = (if m.rouge_avg > s.best_rouge then m.rouge_avg else s.best_rouge) ∧
      (ckptStep i m s).best_rouge_idx
        = (if m.rouge_avg > s.best_rouge then some i else s.best_rouge_idx)) ∧
    (runCkpt [⟨2, 0, 1/2⟩, ⟨3/2, 0, 2/5⟩, ⟨9/5, 0, 3/5⟩]).best_ppl_idx = some 2 ∧
    (runCkpt [⟨2, 0, 1/2⟩, ⟨3/2, 0, 2/5⟩, ⟨9/5, 0, 3/5⟩]).best_rouge_idx = some 3 ∧
    (runCkpt [⟨2, 0, 1/2⟩, ⟨3/2, 0, 2/5⟩, ⟨9/5, 0, 3/5⟩]).last_idx = some 3 := by
  refine ⟨fun i m s => ?_, ?_, ?_, ?_⟩
  · simp only [ckptStep]
    split_ifs <;> simp_all
  all_goals norm_num [runCkpt, ckptStep, initCkptState]

theorem getD_pad_mask (p n j : Nat) (hj : j < p + n) :
    (List.replicate p (0 : Nat) ++ List.replicate n 1).getD j 2 = 1 ↔ p ≤ j := by
  by_cases h : j < p
  · rw [List.getD_append _ _ _ _ (by simpa using h)]
    rw [List.getD_eq_getElem _ _ (by simpa using h)]
    simp only [List.getElem_replicate]
    constructor
    · intro h01
      exact absurd h01 (by omega)
    · intro hpj
      exact absurd hpj (by omega)
  · have hp : p ≤ j := by omega
    rw [List.getD_append_right _ _ _ _ (by simpa using hp)]
    rw [List.getD_eq_getElem _ _ (by simp; omega)]
    simp [hp]

/-- C5: featurization always produces fixed-width output: for every
example, whatever the length of its source and target texts, the
features hold exactly max_source_length source ids and mask entries and
exactly max_target_length target ids and mask entries.  (The length
budgets must be at least 1, and in the test stage the untruncated
placeholder tokenization of "None" plus eos must fit the target
budget.) -/
theorem c5_fixed_width (tokenizer : Tokenizer) (args : FeatArgs) (stage : String)
    (i : Nat) (ex : Example)
    (hs : 1 ≤ args.max_source_length)
    (ht : 1 ≤ args.max_target_length)
    (htest : stage = "test" →
      (tokenizer.tokenize "None").length + 1 ≤ args.max_target_length) :
    (convertOne tokenizer args stage i ex).source_ids.length = args.max_source_length ∧
    (convertOne tokenizer args stage i ex).source_mask.length = args.max_source_length ∧
    (convertOne tokenizer args stage i ex).target_ids.length = args.max_target_length ∧
    (convertOne tokenizer args stage i ex).target_mask.length = args.max_target_length := by
  have hsrc : ((tokenizer.tokenize (taskText ++ pyStrip ex.source_code)).take
      (args.max_source_length - 1)).length + 1 ≤ args.max_source_length := by
    rw [List.length_take]
    omega
  have htgt : (if stage = "test" then tokenizer.tokenize "None"
      else (tokenizer.tokenize ex.target).take (args.max_target_length - 1)).length + 1
      ≤ args.max_target_length := by
    by_cases hst : stage = "test"
    · simpa [hst] using htest hst
    · rw [if_neg hst, List.length_take]
      omega
  refine ⟨?_, ?_, ?_, ?_⟩ <;>
    simp only [convertOne, List.length_append, List.length_map, List.length_replicate,
      List.length_singleton] <;>
    omega

theorem c5_witness :
    ((1 : Nat) ≤ 4) ∧ ((1 : Nat) ≤ 3) ∧
    (("train" : String) = "test" → (tokUnit.tokenize "None").length + 1 ≤ 3) ∧
    ((convertOne tokUnit ⟨4, 3⟩ "train" 0 ⟨0, "x", "", "y"⟩).source_ids.length = 4 ∧
      (convertOne tokUnit ⟨4, 3⟩ "train" 0 ⟨0, "x", "", "y"⟩).source_mask.length = 4 ∧
      (convertOne tokUnit ⟨4, 3⟩ "train" 0 ⟨0, "x", "", "y"⟩).target_ids.length = 3 ∧
      (convertOne tokUnit ⟨4, 3⟩ "train" 0 ⟨0, "x", "", "y"⟩).target_mask.length = 3) :=
  ⟨by decide, by decide, by decide,
    c5_fixed_width tokUnit ⟨4, 3⟩ "train" 0 ⟨0, "x", "", "y"⟩ (by decide) (by decide)
      (by decide)⟩

/-- C6: in every features record, source padding is applied on the left
with id 0 and mask 0, so that a mask entry is 1 exactly at the positions
that hold real tokens; target padding is applied on the right with the
ignore sentinel -100 paired with mask 0, and -100 differs from the
tokenizer's (non-negative) pad id. -/
theorem c6_padding_invariants (tokenizer : Tokenizer) (args : FeatArgs)
    (stage : String) (i : Nat) (ex : Example)
    (hs : 1 ≤ args.max_source_length)
    (hpad : 0 ≤ tokenizer.pad_token_id) :
    ∃ n m : Nat, 1 ≤ n ∧ n ≤ args.max_source_length ∧ 1 ≤ m ∧
      (∃ ids : List Int, ids.length = n ∧
        (convertOne tokenizer args stage i ex).source_ids
          = List.replicate (args.max_source_length - n) 0 ++ ids) ∧
      (convertOne tokenizer args stage i ex).source_mask
        = List.replicate (args.max_source_length - n) 0 ++ List.replicate n 1 ∧
      (∀ j, j < args.max_source_length →
        ((convertOne tokenizer args stage i ex).source_mask.getD j 2 = 1 ↔
          args.max_source_length - n ≤ j)) ∧
      (∃ tids : List Int, tids.length = m ∧
        (convertOne tokenizer args stage i ex).target_ids
          = tids ++ List.replicate (args.max_target_length - m) (-100)) ∧
      (convertOne tokenizer args stage i ex).target_mask
        = List.replicate m 1 ++ List.replicate (args.max_target_length - m) 0 ∧
      (-100 : Int) ≠ tokenizer.pad_token_id := by
  have hnle : ((tokenizer.tokenize (taskText ++ pyStrip ex.source_code)).take
      (args.max_source_length - 1)).length + 1 ≤ args.max_source_length := by
    rw [List.length_take]
    omega
  have hmask : (convertOne tokenizer args stage i ex).source_mask
      = List.replicate (args.max_source_length -
          (((tokenizer.tokenize (taskText ++ pyStrip ex.source_code)).take
            (args.max_source_length - 1)).length + 1)) 0 ++
        List.replicate (((tokenizer.tokenize (taskText ++ pyStrip ex.source_code)).take
            (args.max_source_length - 1)).length + 1) 1 := by
    simp [convertOne]
  refine ⟨((tokenizer.tokenize (taskText ++ pyStrip ex.source_code)).take
      (args.max_source_length - 1)).length + 1,
    (if stage = "test" then tokenizer.tokenize "None"
      else (tokenizer.tokenize ex.target).take (args.max_target_length - 1)).length + 1,
    by omega, hnle, by omega,
    ⟨((tokenizer.tokenize (taskText ++ pyStrip ex.source_code)).take
        (args.max_source_length - 1) ++ [tokenizer.eos_token]).map tokenizer.tokToId,
      by simp, by simp [convertOne]⟩,
    hmask, ?_,
    ⟨((if stage = "test" then tokenizer.tokenize "None"
        else (tokenizer.tokenize ex.target).take (args.max_target_length - 1))
          ++ [tokenizer.eos_token]).map tokenizer.tokToId,
      by simp, by simp [convertOne]⟩,
    by simp [convertOne], by omega⟩
  intro j hj
  rw [hmask]
  exact getD_pad_mask _ _ j (by omega)

theorem c6_witness :
    ((1 : Nat) ≤ (⟨4, 3⟩ : FeatArgs).max_source_length) ∧
    ((0 : Int) ≤ tokUnit.pad_token_id) ∧
    (∃ n m : Nat, 1 ≤ n ∧ n ≤ (⟨4, 3⟩ : FeatArgs).max_source_length ∧ 1 ≤ m ∧
      (∃ ids : List Int, ids.length = n ∧
        (convertOne tokUnit ⟨4, 3⟩ "train" 0 ⟨0, "x", "", "y"⟩).source_ids
          = List.replicate ((⟨4, 3⟩ : FeatArgs).max_source_length - n) 0 ++ ids) ∧
      (convertOne tokUnit ⟨4, 3⟩ "train" 0 ⟨0, "x", "", "y"⟩).source_mask
        = List.replicate ((⟨4, 3⟩ : FeatArgs).max_source_length - n) 0 ++
          List.replicate n 1 ∧
      (∀ j, j < (⟨4, 3⟩ : FeatArgs).max_source_length →
        ((convertOne tokUnit ⟨4, 3⟩ "train" 0 ⟨0, "x", "", "y"⟩).source_mask.getD j 2 = 1 ↔
          (⟨4, 3⟩ : FeatArgs).max_source_length - n ≤ j)) ∧
      (∃ tids : List Int, tids.length = m ∧
        (convertOne tokUnit ⟨4, 3⟩ "train" 0 ⟨0, "x", "", "y"⟩).target_ids
          = tids ++ List.replicate ((⟨4, 3⟩ : FeatArgs).max_target_length - m) (-100)) ∧
      (convertOne tokUnit ⟨4, 3⟩ "train" 0 ⟨0, "x", "", "y"⟩).target_mask
        = List.replicate m 1 ++
          List.replicate ((⟨4, 3⟩ : FeatArgs).max_target_length - m) 0 ∧
      (-100 : Int) ≠ tokUnit.pad_token_id) :=
  ⟨by decide, by decide,
    c6_padding_invariants tokUnit ⟨4, 3⟩ "train" 0 ⟨0, "x", "", "y"⟩ (by decide) (by decide)⟩

theorem sum_eq_count_one (l : List Nat) (h : ∀ x ∈ l, x = 0 ∨ x = 1) :
    l.sum = l.count 1 := by
  induction l with
  | nil => rfl
  | cons a t ih =>
    have ha := h a (by simp)
    have ht := ih (fun x hx => h x (by simp [hx]))
    rcases ha with h0 | h1
    · subst h0
      simp [List.count_cons, ht]
    · subst h1
      simp [List.count_cons, ht, Nat.add_comm]

theorem evalLossTokens_spec (batches : List (ℚ × List Nat)) :
    evalLossTokens batches
      = ((batches.map Prod.fst).sum, (batches.map (fun b => b.2.sum)).sum) := by
  have hgen : ∀ (a : ℚ) (t : Nat),
      batches.foldl (fun acc b => (acc.1 + b.1, acc.2 + b.2.sum)) (a, t)
        = (a + (batches.map Prod.fst).sum, t + (batches.map (fun b => b.2.sum)).sum) := by
    induction batches with
    | nil => intro a t; simp
    | cons b rest ih =>
      intro a t
      simp [List.foldl_cons, ih, Nat.add_assoc]
      ring
  simpa using hgen 0 0

/-- C4: the perplexity reported at each evaluation equals
exp(total_loss / total_target_tokens): the accumulated eval_loss is the
sum of the per-batch losses the model returned, and the accumulated
tokens_num equals the number of target-mask entries equal to 1 across
the whole evaluation set (the masks being 0/1 valued), so the reported
exp(eval_loss / tokens_num) is exp of total loss over total non-ignored
target positions. -/
theorem c4_perplexity (batches : List (ℚ × List Nat))
    (hm : ∀ b ∈ batches, ∀ x ∈ b.2, x = 0 ∨ x = 1) :
    (evalLossTokens batches).1 = (batches.map Prod.fst).sum ∧
    (evalLossTokens batches).2 = (batches.map (fun b => b.2.count 1)).sum ∧
    Real.exp (evalAvgLoss batches)
      = Real.exp ((((batches.map Prod.fst).sum : ℚ) : ℝ)
          / (((batches.map (fun b => b.2.count 1)).sum : Nat) : ℝ)) := by
  have hmaps : batches.map (fun b => b.2.sum) = batches.map (fun b => b.2.count 1) :=
    List.map_congr_left (fun b hb => sum_eq_count_one b.2 (hm b hb))
  have hspec := evalLossTokens_spec batches
  refine ⟨by rw [hspec], by rw [hspec]; exact congrArg List.sum hmaps, ?_⟩
  congr 1
  simp only [evalAvgLoss, hspec, hmaps]
  rw [Rat.cast_div, Rat.cast_natCast]

theorem c4_witness :
    (∀ b ∈ ([((2 : ℚ), [1, 0, 1]), ((1 : ℚ), [1])] : List (ℚ × List Nat)),
      ∀ x ∈ b.2, x = 0 ∨ x = 1) ∧
    ((evalLossTokens [((2 : ℚ), [1, 0, 1]), ((1 : ℚ), [1])]).1
        = (([((2 : ℚ), [1, 0, 1]), ((1 : ℚ), [1])] : List (ℚ × List Nat)).map
            Prod.fst).sum ∧
      (evalLossTokens [((2 : ℚ), [1, 0, 1]), ((1 : ℚ), [1])]).2
        = (([((2 : ℚ), [1, 0, 1]), ((1 : ℚ), [1])] : List (ℚ × List Nat)).map
            (fun b => b.2.count 1)).sum ∧
      Real.exp (evalAvgLoss [((2 : ℚ), [1, 0, 1]), ((1 : ℚ), [1])])
        = Real.exp ((((([((2 : ℚ), [1, 0, 1]), ((1 : ℚ), [1])] : List (ℚ × List Nat)).map
              Prod.fst).sum : ℚ) : ℝ)
            / (((([((2 : ℚ), [1, 0, 1]), ((1 : ℚ), [1])] : List (ℚ × List Nat)).map
              (fun b => b.2.count 1)).sum : Nat) : ℝ))) :=
  ⟨by decide, c4_perplexity [((2 : ℚ), [1, 0, 1]), ((1 : ℚ), [1])] (by decide)⟩

theorem foldlM_option_congr {α β : Type} (f g : β → α → Option β) :
    ∀ (l : List α), (∀ acc a, a ∈ l → f acc a = g acc a) →
    ∀ acc, l.foldlM f acc = l.foldlM g acc := by
  intro l
  induction l with
  | nil => intro _ acc; rfl
  | cons x xs ih =>
    intro h acc
    simp only [List.foldlM_cons]
    rw [h acc x (by simp)]
    cases hx : g acc x with
    | none => rfl
    | some b =>
      simpa using ih (fun acc a ha => h acc a (by simp [ha])) b

theorem devRerankOne_eq_foldl (rf : RougeFn) (gold : String) (cands : List String)
    (h : ∀ c ∈ cands, pyLower (pyStrip c) ≠ "") :
    devRerankOne rf gold cands
      = some (cands.foldl
          (fun acc c => if devCandScore rf gold c > acc.2
            then (c, devCandScore rf gold c) else acc)
          ("", (-1 : ℚ))) := by
  rw [devRerankOne]
  have hgen : ∀ (l : List String), (∀ c ∈ l, pyLower (pyStrip c) ≠ "") →
      ∀ acc : String × ℚ,
      l.foldlM
        (fun acc c => do
          let s ← getScoresOpt rf (pyLower (pyStrip c)) (pyLower (pyStrip gold))
          let score := aggOf s
          pure (if score > acc.2 then (c, score) else acc)) acc
      = some (l.foldl
          (fun acc c => if devCandScore rf gold c > acc.2
            then (c, devCandScore rf gold c) else acc) acc) := by
    intro l
    induction l with
    | nil => intro _ acc; rfl
    | cons c cs ih =>
      intro hl acc
      simp only [List.foldlM_cons, List.foldl_cons]
      rw [getScoresOpt, if_neg (hl c (by simp))]
      simpa [devCandScore] using ih (fun x hx => hl x (by simp [hx])) _
  exact hgen cands h _

theorem foldl_best_spec (score : String → ℚ) (cands : List String) :
    ∀ acc : String × ℚ,
      (cands.foldl (fun a c => if score c > a.2 then (c, score c) else a) acc = acc ∧
        ∀ c ∈ cands, score c ≤ acc.2) ∨
      (∃ j, j < cands.length ∧
        cands.foldl (fun a c => if score c > a.2 then (c, score c) else a) acc
          = (cands.getD j "", score (cands.getD j "")) ∧
        acc.2 < score (cands.getD j "") ∧
        (∀ k, k < cands.length → score (cands.getD k "") ≤ score (cands.getD j "")) ∧
        (∀ k, k < j → score (cands.getD k "") < score (cands.getD j ""))) := by
  induction cands with
  | nil =>
    intro acc
    left
    exact ⟨rfl, by simp⟩
  | cons c cs ih =>
    intro acc
    simp only [List.foldl_cons]
    by_cases hc : score c > acc.2
    · rw [if_pos hc]
      rcases ih (c, score c) with ⟨heq, hall⟩ | ⟨j, hj, heq, hgt, hall, hfirst⟩
      · right
        refine ⟨0, by simp, by simpa using heq, by simpa using hc, ?_, ?_⟩
        · intro k hk
          cases k with
          | zero => simp
          | succ m =>
            simp only [List.getD_cons_succ, List.getD_cons_zero]
            have hm : m < cs.length := by simpa using hk
            rw [List.getD_eq_getElem _ _ hm]
            exact hall _ (List.getElem_mem hm)
        · intro k hk
          omega
      · right
        refine ⟨j + 1, by simpa using hj, by simpa using heq, ?_, ?_, ?_⟩
        · simp only [List.getD_cons_succ]
          exact lt_trans hc hgt
        · intro k hk
          cases k with
          | zero =>
            simp only [List.getD_cons_succ, List.getD_cons_zero]
            exact le_of_lt hgt
          | succ m =>
            simp only [List.getD_cons_succ]
            exact hall m (by simpa using hk)
        · intro k hk
          cases k with
          | zero =>
            simp only [List.getD_cons_succ, List.getD_cons_zero]
            exact hgt
          | succ m =>
            simp only [List.getD_cons_succ]
            exact hfirst m (by omega)
    · rw [if_neg hc]
      push_neg at hc
      rcases ih acc with ⟨heq, hall⟩ | ⟨j, hj, heq, hgt, hall, hfirst⟩
      · left
        refine ⟨heq, ?_⟩
        intro x hx
        rcases List.mem_cons.mp hx with hx0 | hx1
        · exact hx0 ▸ hc
        · exact hall x hx1
      · right
        refine ⟨j + 1, by simpa using hj, by simpa using heq, ?_, ?_, ?_⟩
        · simp only [List.getD_cons_succ]
          exact hgt
        · intro k hk
          cases k with
          | zero =>
            simp only [List.getD_cons_succ, List.getD_cons_zero]
            exact le_trans hc (le_of_lt hgt)
          | succ m =>
            simp only [List.getD_cons_succ]
            exact hall m (by simpa using hk)
        · intro k hk
          cases k with
          | zero =>
            simp only [List.getD_cons_succ, List.getD_cons_zero]
            exact lt_of_le_of_lt hc hgt
          | succ m =>
            simp only [List.getD_cons_succ]
            exact hfirst m (by omega)

/-- C3: for every example i with num_return_sequences generated
candidates p[i * N .. i * N + N - 1], the dev-time best-of-N reranker
selects a candidate whose aggregate overlap score is maximal among the
example's candidates, and every earlier candidate of the example has a
strictly smaller score: on an exact tie the first-seen (lowest-index)
candidate is kept, because the comparison is the strict >.  (The rouge
scores are non-negative and the candidates are non-empty after
stripping, so the -1.0 initial best is always beaten.) -/
theorem c3_rerank_selects_first_max (rf : RougeFn) (golds p : List String)
    (n i : Nat) (hi : i < golds.length) (hn : 1 ≤ n)
    (hp : p.length = golds.length * n)
    (hne : ∀ c ∈ p, pyLower (pyStrip c) ≠ "")
    (h0 : ∀ hyp ref : String, 0 ≤ aggOf (rf hyp ref)) :
    ∃ j, j < (candSlice p n i).length ∧
      devRerankOne rf (golds.getD i "") (candSlice p n i)
        = some ((candSlice p n i).getD j "",
            devCandScore rf (golds.getD i "") ((candSlice p n i).getD j "")) ∧
      (∀ k, k < (candSlice p n i).length →
        devCandScore rf (golds.getD i "") ((candSlice p n i).getD k "")
          ≤ devCandScore rf (golds.getD i "") ((candSlice p n i).getD j "")) ∧
      (∀ k, k < j →
        devCandScore rf (golds.getD i "") ((candSlice p n i).getD k "")
          < devCandScore rf (golds.getD i "") ((candSlice p n i).getD j "")) := by
  have hmul : (i + 1) * n ≤ golds.length * n :=
    Nat.mul_le_mul_right n (by omega)
  have hexp : (i + 1) * n = i * n + n := by ring
  have hslice : (candSlice p n i).length = n := by
    rw [candSlice, List.length_take, List.length_drop, hp]
    omega
  have hmem : ∀ c ∈ candSlice p n i, pyLower (pyStrip c) ≠ "" := by
    intro c hc
    exact hne c (List.mem_of_mem_drop (List.mem_of_mem_take hc))
  rw [devRerankOne_eq_foldl rf _ _ hmem]
  rcases foldl_best_spec (devCandScore rf (golds.getD i "")) (candSlice p n i)
      ("", (-1 : ℚ)) with ⟨heq, hall⟩ | ⟨j, hj, heq, hgt, hall, hfirst⟩
  · exfalso
    have hpos : 0 < (candSlice p n i).length := by omega
    obtain ⟨c, hc⟩ := List.exists_mem_of_length_pos hpos
    have h1 := hall c hc
    have h2 := h0 (pyLower (pyStrip c)) (pyLower (pyStrip (golds.getD i "")))
    rw [devCandScore] at h1
    exact absurd (le_trans h2 h1) (by norm_num)
  · exact ⟨j, hj, by rw [heq], hall, hfirst⟩

theorem c3_witness :
    ((0 : Nat) < (["g"] : List String).length ∧ (1 : Nat) ≤ 2 ∧
      (["a", "b"] : List String).length = (["g"] : List String).length * 2 ∧
      (∀ c ∈ (["a", "b"] : List String), pyLower (pyStrip c) ≠ "")) ∧
    (∃ j, j < (candSlice ["a", "b"] 2 0).length ∧
      devRerankOne rfZero ((["g"] : List String).getD 0 "") (candSlice ["a", "b"] 2 0)
        = some ((candSlice ["a", "b"] 2 0).getD j "",
            devCandScore rfZero ((["g"] : List String).getD 0 "")
              ((candSlice ["a", "b"] 2 0).getD j "")) ∧
      (∀ k, k < (candSlice ["a", "b"] 2 0).length →
        devCandScore rfZero ((["g"] : List String).getD 0 "")
            ((candSlice ["a", "b"] 2 0).getD k "")
          ≤ devCandScore rfZero ((["g"] : List String).getD 0 "")
              ((candSlice ["a", "b"] 2 0).getD j "")) ∧
      (∀ k, k < j →
        devCandScore rfZero ((["g"] : List String).getD 0 "")
            ((candSlice ["a", "b"] 2 0).getD k "")
          < devCandScore rfZero ((["g"] : List String).getD 0 "")
              ((candSlice ["a", "b"] 2 0).getD j ""))) :=
  ⟨⟨by decide, by decide, by decide, by decide⟩,
    c3_rerank_selects_first_max rfZero ["g"] ["a", "b"] 2 0 (by decide) (by decide)
      (by decide) (by decide)
      (fun hyp ref => by simp [rfZero, aggOf])⟩

/-- C9 (amended): on every example all of whose candidates are non-empty
after stripping, the test-phase reranker computes exactly the same
per-candidate scores and selection as the dev-time reranker; the two
differ on whitespace-only candidates, where the test phase substitutes
the single-space placeholder while the dev-time loop passes the empty
hypothesis to the scorer, which raises. -/
theorem c9_rerank_dev_test_equiv (rf : RougeFn) (gold : String)
    (cands : List String) (h : ∀ c ∈ cands, pyStrip c ≠ "") :
    devRerankOne rf gold cands = testRerankOne rf gold cands := by
  rw [devRerankOne, testRerankOne]
  refine foldlM_option_congr _ _ cands ?_ _
  intro acc c hc
  rw [if_neg (h c hc)]

theorem c9_witness :
    (∀ c ∈ (["a"] : List String), pyStrip c ≠ "") ∧
    devRerankOne rfZero "g" ["a"] = testRerankOne rfZero "g" ["a"] :=
  ⟨by decide, c9_rerank_dev_test_equiv rfZero "g" ["a"] (by decide)⟩

/-- C9 counterexample: on a whitespace-only candidate the two rerankers
disagree: the dev-time loop passes the empty hypothesis to the scorer
and raises (none), while the test-phase loop substitutes the
single-space placeholder and selects the candidate with its score. -/
theorem c9_counterexample :
    devRerankOne rfZero "a" [""] = none ∧
    testRerankOne rfZero "a" [""] = some ("", 0) := by
  constructor
  · decide
  · have h1 : pyStrip "" = "" := by decide
    have h2 : (" " : String) ≠ "" := by decide
    simp only [testRerankOne, List.foldlM_cons, List.foldlM_nil, h1, if_pos,
      getScoresOpt, if_neg h2, rfZero, aggOf]
    norm_num

theorem aggStep_some (rf : RougeFn) (bf : BleuFn) (s : AggState)
    (pg : String × String)
    (hlow : pyStrip pg.1 ≠ "" → pyLower (pyStrip pg.1) ≠ "") :
    ∃ t, aggStep rf bf s pg = some t ∧ t.count = s.count + 1 := by
  obtain ⟨inf, gold⟩ := pg
  simp only [aggStep]
  by_cases he : pyStrip inf = ""
  · simp only [he, if_pos, getScoresOpt]
    have hws : (" " : String) ≠ "" := by decide
    simp [if_neg hws]
    split_ifs <;> simp
  · have hlo : pyLower (pyStrip inf) ≠ "" := hlow he
    simp only [he, getScoresOpt]
    simp [if_neg he, if_neg hlo]
    split_ifs <;> simp

theorem runAgg_go (rf : RougeFn) (bf : BleuFn) :
    ∀ (pairs : List (String × String)),
      (∀ pg ∈ pairs, pyStrip pg.1 ≠ "" → pyLower (pyStrip pg.1) ≠ "") →
      ∀ s : AggState,
        ∃ a, pairs.foldlM (aggStep rf bf) s = some a ∧
          a.count = s.count + pairs.length := by
  intro pairs
  induction pairs with
  | nil =>
    intro _ s
    exact ⟨s, rfl, by simp⟩
  | cons pg rest ih =>
    intro h s
    obtain ⟨t, ht, htc⟩ := aggStep_some rf bf s pg (h pg (by simp))
    obtain ⟨a, ha, hac⟩ := ih (fun x hx => h x (by simp [hx])) t
    refine ⟨a, ?_, by simp [hac, htc]; omega⟩
    rw [List.foldlM_cons, ht]
    simpa using ha

/-- C7: during corpus-level metric aggregation an example whose
hypothesis strips to empty is neither skipped nor raises: the whole loop
succeeds with count equal to the full number of examples (so the final
division is by the exact total, empty hypotheses included), and the step
for an empty hypothesis calls the rouge scorer with the single-space
placeholder against the stripped gold, adds 0 to the bleu sum, and still
counts the example. -/
theorem c7_empty_hypothesis_aggregation (rf : RougeFn) (bf : BleuFn)
    (pairs : List (String × String))
    (hlow : ∀ pg ∈ pairs, pyStrip pg.1 ≠ "" → pyLower (pyStrip pg.1) ≠ "") :
    (∃ a : AggState, runAgg rf bf pairs = some a ∧ a.count = pairs.length) ∧
    (∀ (s : AggState) (inf gold : String), pyStrip inf = "" →
      ∃ t : AggState, aggStep rf bf s (inf, gold) = some t ∧
        t.count = s.count + 1 ∧
        t.rouge_1 = s.rouge_1 + (rf " " (pyStrip gold)).r1f ∧
        t.rouge_2 = s.rouge_2 + (rf " " (pyStrip gold)).r2f ∧
        t.rouge_l = s.rouge_l + (rf " " (pyStrip gold)).rlf ∧
        t.dev_bleu = s.dev_bleu) := by
  constructor
  · obtain ⟨a, ha, hac⟩ := runAgg_go rf bf pairs hlow initAggState
    exact ⟨a, ha, by simpa [initAggState] using hac⟩
  · intro s inf gold he
    simp only [aggStep, he, if_pos, getScoresOpt]
    have hws : (" " : String) ≠ "" := by decide
    simp [if_neg hws]
    split_ifs <;> simp

theorem c7_witness :
    (∀ pg ∈ ([("", "g"), ("x", "y")] : List (String × String)),
      pyStrip pg.1 ≠ "" → pyLower (pyStrip pg.1) ≠ "") ∧
    ((∃ a : AggState, runAgg rfZero bfZero [("", "g"), ("x", "y")] = some a ∧
        a.count = ([("", "g"), ("x", "y")] : List (String × String)).length) ∧
      (∀ (s : AggState) (inf gold : String), pyStrip inf = "" →
        ∃ t : AggState, aggStep rfZero bfZero s (inf, gold) = some t ∧
          t.count = s.count + 1 ∧
          t.rouge_1 = s.rouge_1 + (rfZero " " (pyStrip gold)).r1f ∧
          t.rouge_2 = s.rouge_2 + (rfZero " " (pyStrip gold)).r2f ∧
          t.rouge_l = s.rouge_l + (rfZero " " (pyStrip gold)).rlf ∧
          t.dev_bleu = s.dev_bleu)) :=
  ⟨by decide, c7_empty_hypothesis_aggregation rfZero bfZero [("", "g"), ("x", "y")]
    (by decide)⟩

/-- C8 (code_bug): on an empty evaluation set the aggregation loop
appends no predictions, total = len(predictions) = 0, and the final
averaging block executes dev_bleu /= total with total = 0: the corpus
pass raises ZeroDivisionError (modelled none) instead of guarding the
division and reporting, for every choice of the scoring collaborators. -/
theorem c8_empty_eval_division_crash (rf : RougeFn) (bf : BleuFn) :
    evalCorpus rf bf [] = none := rfl

end Auger
